import Mathlib

/-!
# The gRPC service layer of `api/service.go`

A shallow embedding of `store`, `service.Store` and `service.Watch`.

The two goroutines of `Store` meet only at the `io.Pipe` and at the one-shot
`storeChannel`; the embedding records what the coordinator does to the write
end of the pipe (`PipeOp`), hands the resulting reader view to the domain
engine, and records every call on the gRPC stream.  The collaborators the
service cannot see into (the gRPC stream, the reader side of the pipe, the
deal module, the cid library) are fields of environment structures.
Each call is taken to return; a run in which a call blocks for ever has no
outcome here.  The `context.Context` handed to the deal module is not
modelled.
-/

namespace api

/-- A Go `[]byte`. -/
abbrev Bytes := List (Fin 256)

/-- The gRPC status codes that matter here (`google.golang.org/grpc/codes`). -/
inductive codes.Code where
  | OK
  | Unknown
  | InvalidArgument
deriving DecidableEq, Repr

/-- Dynamic type of the `Payload` oneof of a `pb.StoreRequest`; it is what
the `%T` verb of the two `status.Errorf` calls prints. -/
inductive PayloadType where
  | StoreRequest_StoreParams
  | StoreRequest_Chunk
  | nil
deriving DecidableEq, Repr

/-- A non-nil Go `error` value.  `EOF` is `io.EOF`; `status` is the error
built by `status.Errorf(code, format, arg)`; `other` is any error made
elsewhere (transport, pipe, deal module, cid library). -/
inductive GoError where
  | EOF
  | status (c : codes.Code) (format : String) (arg : PayloadType)
  | other (msg : String)
deriving DecidableEq, Repr

/-- The code `status.Code(err)` reports: the code of a status error, and
`Unknown` for an error that is not a status error. -/
def status.Code : GoError → codes.Code
  | .status c _ _ => c
  | _ => codes.Code.Unknown

/-- The call `status.Errorf(c, format, payload)` with a `%T` argument. -/
def status.Errorf (c : codes.Code) (format : String) (arg : PayloadType) : GoError :=
  GoError.status c format arg

/-- Modelled from the spec: `types.BigInt` of package `lotus/types`, the
arbitrary-precision integer of the data model (a wrapper of `*big.Int`). -/
abbrev types.BigInt := Int

/-- Modelled from the spec: `types.NewInt(i uint64)`, the big integer with
the value of the unsigned 64-bit `i`. -/
def types.NewInt (i : Nat) : types.BigInt := Int.ofNat (i % 2 ^ 64)

/-- Modelled from the spec: `BigInt.Uint64()`, the conversion of the
arbitrary-precision price to the unsigned 64-bit wire form; it is the method
of the wrapped `big.Int`, which keeps the low 64 bits of the magnitude. -/
def types.BigInt.Uint64 (x : types.BigInt) : Nat := x.natAbs % 2 ^ 64

/-- The `cid.Cid` of `go-cid`: a wrapper of the binary form. -/
structure cid.Cid where
  str : Bytes
deriving DecidableEq, Repr

/-- The two operations of `go-cid` the service calls. -/
structure cid.Lib where
  /-- The function `cid.Decode`. -/
  Decode : String → Except GoError cid.Cid
  /-- The method `Cid.String`. -/
  String : cid.Cid → String

/-- Modelled from the spec: wire message `pb.DealConfig`
(miner string, epochPrice uint64). -/
structure pb.DealConfig where
  Miner : String
  EpochPrice : Nat
deriving DecidableEq, Repr

/-- Modelled from the spec: wire message `pb.StoreParams`, the parameter
header (address, per-target deal configs, duration). -/
structure pb.StoreParams where
  Address : String
  DealConfigs : List pb.DealConfig
  Duration : Nat
deriving DecidableEq, Repr

/-- Modelled from the spec: the `Payload` oneof of `pb.StoreRequest`: a
parameter header, a raw byte chunk, or nothing. -/
inductive pb.StoreRequest where
  | StoreParams (storeParams : pb.StoreParams)
  | Chunk (chunk : Bytes)
  | nil
deriving DecidableEq, Repr

/-- The dynamic type the type switches of `Store` look at. -/
def pb.StoreRequest.GetPayload : pb.StoreRequest → PayloadType
  | .StoreParams _ => PayloadType.StoreRequest_StoreParams
  | .Chunk _ => PayloadType.StoreRequest_Chunk
  | .nil => PayloadType.nil

/-- Modelled from the spec: wire message `pb.StoreReply`
(contentIDs, dealConfigs). -/
structure pb.StoreReply where
  Cids : List String
  DealConfigs : List pb.DealConfig
deriving DecidableEq, Repr

/-- Modelled from the spec: wire message `pb.DealInfo`. -/
structure pb.DealInfo where
  ProposalCid : String
  StateID : Nat
  StateName : String
  Miner : String
  PieceRef : Bytes
  Size : Nat
  PricePerEpoch : Nat
  Duration : Nat
deriving DecidableEq, Repr

/-- Modelled from the spec: wire message `pb.WatchReply`. -/
structure pb.WatchReply where
  DealInfo : pb.DealInfo
deriving DecidableEq, Repr

/-- Modelled from the spec: wire message `pb.WatchRequest`. -/
structure pb.WatchRequest where
  Proposals : List String
deriving DecidableEq, Repr

/-- Modelled from the spec: `deals.DealConfig`, the domain form of a deal
config; its price is a big integer. -/
structure deals.DealConfig where
  Miner : String
  EpochPrice : types.BigInt
deriving DecidableEq, Repr

/-- Modelled from the spec: `deals.DealInfo`, one update of the
subscription channel. -/
structure deals.DealInfo where
  ProposalCid : cid.Cid
  StateID : Nat
  StateName : String
  Miner : String
  PieceRef : Bytes
  Size : Nat
  PricePerEpoch : types.BigInt
  Duration : Nat
deriving DecidableEq, Repr

/-- How the write end of the pipe stands. -/
inductive PipeEnd where
  | stillOpen
  | closed
  | closedWithError (e : GoError)
deriving DecidableEq, Repr

/-- One call on the `*io.PipeWriter`, in program order; a `Write` carries
the error it returned. -/
inductive PipeOp where
  | Write (b : Bytes) (err : Option GoError)
  | Close
  | CloseWithError (e : GoError)
deriving DecidableEq, Repr

/-- What the `*io.PipeReader` yields: the bytes, then end of stream or the
closing error (or a blocked read while the write end is open). -/
structure PipeReader where
  data : Bytes
  finish : PipeEnd
deriving DecidableEq, Repr

/-- Bytes of the writes that went through, in order.  A `Write` that
returned an error counts for nothing here: the prefix `io.Pipe` may have
delivered before the read end was closed is not tracked (the code drops the
count as well). -/
def pipeData : List PipeOp → Bytes
  | [] => []
  | .Write b none :: ops => b ++ pipeData ops
  | _ :: ops => pipeData ops

/-- State of the write end after the calls: the first close decides. -/
def pipeEnd : List PipeOp → PipeEnd
  | [] => PipeEnd.stillOpen
  | .Close :: _ => PipeEnd.closed
  | .CloseWithError e :: _ => PipeEnd.closedWithError e
  | .Write _ _ :: ops => pipeEnd ops

/-- The reader end of a pipe whose writer received `ops`. -/
def readerOf (ops : List PipeOp) : PipeReader :=
  { data := pipeData ops, finish := pipeEnd ops }

/-- Result triple of `DealModule.Store`. -/
structure deals.StoreReturn where
  cids : List cid.Cid
  dealConfigs : List deals.DealConfig
  err : Option GoError

/-- Modelled from the spec: `deals.DealModule`, the domain engine, a black
box with the store and the subscribe operation.  `Watch` gives the updates
its channel delivers before it is closed. -/
structure deals.DealModule where
  Store : String → PipeReader → List deals.DealConfig → Nat → deals.StoreReturn
  Watch : List cid.Cid → Except GoError (List deals.DealInfo)

structure service where
  dealModule : deals.DealModule
  cids : cid.Lib

structure storeResult where
  Cids : List cid.Cid
  DealConfigs : List deals.DealConfig
  Err : Option GoError
deriving DecidableEq, Repr

/-- The conversion loop at the head of `store`. -/
def toDealConfigs (cfgs : List pb.DealConfig) : List deals.DealConfig :=
  cfgs.map fun dealConfig =>
    { Miner := dealConfig.Miner, EpochPrice := types.NewInt dealConfig.EpochPrice }

/-- The background task `store`: the value it sends on the channel. -/
def store (dealModule : deals.DealModule) (storeParams : pb.StoreParams)
    (reader : PipeReader) : storeResult :=
  let r := dealModule.Store storeParams.Address reader
    (toDealConfigs storeParams.DealConfigs) storeParams.Duration
  match r.err with
  | some err => { Cids := [], DealConfigs := [], Err := some err }
  | none => { Cids := r.cids, DealConfigs := r.dealConfigs, Err := none }

/-- Modelled from the spec: the server side of the client stream,
`pb.API_StoreServer` (first a header, then chunks, then a terminator): `Recv`
yields `msgs` one by one and then `recvErr` (`io.EOF` after a clean
half-close); `SendAndClose` returns what `sendAndClose` says. -/
structure API_StoreServer where
  msgs : List pb.StoreRequest
  recvErr : GoError
  sendAndClose : pb.StoreReply → Option GoError

/-- The reader side as the writer meets it: the error of the k-th `Write`
(`none` when the bytes were consumed). -/
structure Pipe where
  writeErr : Nat → Option GoError

/-- What the background task was started with: the arguments of the
engine call it makes at once. -/
structure StoreTask where
  address : String
  dealConfigs : List deals.DealConfig
  duration : Nat
deriving DecidableEq, Repr

/-- How the receive loop of `Store` ends: by `break`, or by `return e`. -/
inductive LoopExit where
  | drained
  | returned (e : GoError)
deriving DecidableEq, Repr

/-- The call that ends the loop when `Recv` fails with `err`:
`writer.Close()` on `io.EOF`, `writer.CloseWithError(err)` otherwise. -/
def closeCall (err : GoError) : PipeOp :=
  if err = GoError.EOF then PipeOp.Close else PipeOp.CloseWithError err

/-- The `for` loop of `Store` (lines 86-104): the calls made on the writer
and the way the loop is left; `k` counts the writes made before. -/
def recvLoop (pipe : Pipe) (recvErr : GoError) :
    List pb.StoreRequest → Nat → List PipeOp × LoopExit
  | [], _ => ([closeCall recvErr], LoopExit.drained)
  | .Chunk chunk :: rest, k =>
    match pipe.writeErr k with
    | some writeErr => ([PipeOp.Write chunk (some writeErr)], LoopExit.returned writeErr)
    | none =>
      let r := recvLoop pipe recvErr rest (k + 1)
      (PipeOp.Write chunk none :: r.1, r.2)
  | req :: _, _ =>
    ([], LoopExit.returned (status.Errorf codes.Code.InvalidArgument
      "expected Chunk for StoreRequest.Payload but got %T" req.GetPayload))

/-- Everything observable of one `Store` call. -/
structure StoreOutcome where
  /-- Calls on the pipe writer; `none` when `io.Pipe()` was never reached. -/
  pipe : Option (List PipeOp)
  /-- The started background task, `none` when `go store(...)` was never reached. -/
  task : Option StoreTask
  /-- The result taken from `storeChannel`, `none` when it was never received. -/
  received : Option storeResult
  /-- The messages passed to `SendAndClose`. -/
  replies : List pb.StoreReply
  /-- The returned error (`none` is `nil`). -/
  ret : Option GoError
deriving DecidableEq, Repr

/-- The two conversion loops of `Store` (lines 111-119). -/
def toStoreReply (lib : cid.Lib) (r : storeResult) : pb.StoreReply :=
  { Cids := r.Cids.map lib.String
    DealConfigs := r.DealConfigs.map fun dealConfig =>
      { Miner := dealConfig.Miner, EpochPrice := dealConfig.EpochPrice.Uint64 } }

/-- The method `service.Store`. -/
def Store (s : service) (srv : API_StoreServer) (pipe : Pipe) : StoreOutcome :=
  match srv.msgs with
  | [] => { pipe := none, task := none, received := none, replies := [], ret := some srv.recvErr }
  | .StoreParams storeParams :: rest =>
    let task : StoreTask :=
      { address := storeParams.Address
        dealConfigs := toDealConfigs storeParams.DealConfigs
        duration := storeParams.Duration }
    let loop := recvLoop pipe srv.recvErr rest 0
    match loop.2 with
    | .returned e =>
      { pipe := some loop.1, task := some task, received := none, replies := [], ret := some e }
    | .drained =>
      let storeResult := store s.dealModule storeParams (readerOf loop.1)
      match storeResult.Err with
      | some err =>
        { pipe := some loop.1, task := some task, received := some storeResult,
          replies := [], ret := some err }
      | none =>
        let reply := toStoreReply s.cids storeResult
        { pipe := some loop.1, task := some task, received := some storeResult,
          replies := [reply], ret := srv.sendAndClose reply }
  | req :: _ =>
    { pipe := none, task := none, received := none, replies := []
      ret := some (status.Errorf codes.Code.InvalidArgument
        "expexted StoreParams for StoreRequest.Payload but got %T" req.GetPayload) }

/-- Modelled from the spec: the server side of the reply stream,
`pb.API_WatchServer`: the error of the k-th `Send`. -/
structure API_WatchServer where
  send : Nat → pb.WatchReply → Option GoError

/-- The decoding loop of `Watch` (lines 125-132): the first failure is returned. -/
def decodeProposals (lib : cid.Lib) : List String → Except GoError (List cid.Cid)
  | [] => Except.ok []
  | proposal :: rest =>
    match lib.Decode proposal with
    | .error err => Except.error err
    | .ok id =>
      match decodeProposals lib rest with
      | .error err => Except.error err
      | .ok ids => Except.ok (id :: ids)

/-- The message built for one update (lines 143-153). -/
def toWatchReply (lib : cid.Lib) (update : deals.DealInfo) : pb.WatchReply :=
  { DealInfo :=
    { ProposalCid := lib.String update.ProposalCid
      StateID := update.StateID
      StateName := update.StateName
      Miner := update.Miner
      PieceRef := update.PieceRef
      Size := update.Size
      PricePerEpoch := update.PricePerEpoch.Uint64
      Duration := update.Duration } }

/-- One call of `srv.Send` with the error it returned. -/
structure SendCall where
  reply : pb.WatchReply
  err : Option GoError
deriving DecidableEq, Repr

/-- The forwarding loop of `Watch` (lines 138-155) over the updates the
channel delivers before it is closed; `k` counts the sends made before.
The value of `srv.Send` is dropped. -/
def forward (lib : cid.Lib) (srv : API_WatchServer) : List deals.DealInfo → Nat → List SendCall
  | [], _ => []
  | update :: rest, k =>
    let reply := toWatchReply lib update
    { reply := reply, err := srv.send k reply } :: forward lib srv rest (k + 1)

/-- Everything observable of one `Watch` call. -/
structure WatchOutcome where
  /-- The identifiers `dealModule.Watch` was called with, `none` when it was not called. -/
  subscription : Option (List cid.Cid)
  /-- Number of updates taken from the channel. -/
  taken : Nat
  /-- The calls of `srv.Send`, in order. -/
  sends : List SendCall
  /-- The returned error (`none` is `nil`). -/
  ret : Option GoError
deriving DecidableEq, Repr

/-- The method `service.Watch`. -/
def Watch (s : service) (req : pb.WatchRequest) (srv : API_WatchServer) : WatchOutcome :=
  match decodeProposals s.cids req.Proposals with
  | .error err => { subscription := none, taken := 0, sends := [], ret := some err }
  | .ok proposals =>
    match s.dealModule.Watch proposals with
    | .error err => { subscription := some proposals, taken := 0, sends := [], ret := some err }
    | .ok updates =>
      let sends := forward s.cids srv updates 0
      { subscription := some proposals, taken := sends.length, sends := sends, ret := none }

/-- The writer calls of a run of successful chunk writes. -/
def chunkWrites (chunks : List Bytes) : List PipeOp :=
  chunks.map fun c => PipeOp.Write c none

/-! ## Concrete runs -/

/-- The chunk "ab". -/
def chunkAB : Bytes := [97, 98]

/-- The chunk "cd". -/
def chunkCD : Bytes := [99, 100]

/-- The content identifier of the store scenario of the spec, which the
scenario prints as "Qm123". -/
def qm123 : cid.Cid := { str := [18, 32, 1] }

/-- The CIDv1 of the empty raw block under the identity hash: version 1,
codec 0x55, multihash 00 00.  Its base32 string form is "bafkqaaa". -/
def rawEmpty : cid.Cid := { str := [1, 85, 0, 0] }

/-- A cid library restricted to what the runs below need: `Decode` accepts
"bafkqaaa" and rejects every other string (among them "Qm123" and "bogus",
which `go-cid` rejects too); `String` prints `rawEmpty` and the scenario's
content identifier. -/
def oneCidLib : cid.Lib :=
  { Decode := fun str =>
      if str = "bafkqaaa" then Except.ok rawEmpty
      else Except.error (GoError.other "cid too short")
    String := fun c =>
      if c = rawEmpty then "bafkqaaa" else if c = qm123 then "Qm123" else "" }

/-- The header of the store scenario. -/
def scenarioParams : pb.StoreParams :=
  { Address := "addr1", DealConfigs := [{ Miner := "m1", EpochPrice := 100 }], Duration := 1000 }

/-- A pipe whose reader consumes every write. -/
def readingPipe : Pipe := { writeErr := fun _ => none }

/-- The inbound stream of the store scenario: header, "ab", "cd", end of input. -/
def scenarioStream : API_StoreServer :=
  { msgs := [pb.StoreRequest.StoreParams scenarioParams, pb.StoreRequest.Chunk chunkAB,
      pb.StoreRequest.Chunk chunkCD]
    recvErr := GoError.EOF
    sendAndClose := fun _ => none }

/-- An update of the deal proposal `rawEmpty`. -/
def updateActive : deals.DealInfo :=
  { ProposalCid := rawEmpty, StateID := 7, StateName := "Active", Miner := "m1",
    PieceRef := [1, 2], Size := 4, PricePerEpoch := 100, Duration := 1000 }

/-- A later update of the same deal. -/
def updateComplete : deals.DealInfo :=
  { ProposalCid := rawEmpty, StateID := 8, StateName := "Complete", Miner := "m1",
    PieceRef := [1, 2], Size := 4, PricePerEpoch := 100, Duration := 1000 }

/-- An engine that stores everything, echoes the deal configs, and emits
two updates on a subscription. -/
def echoEngine : deals.DealModule :=
  { Store := fun _ _ dealConfigs _ => { cids := [qm123], dealConfigs := dealConfigs, err := none }
    Watch := fun _ => Except.ok [updateActive, updateComplete] }

def echoService : service := { dealModule := echoEngine, cids := oneCidLib }

/-- An engine whose store call fails. -/
def failingEngine : deals.DealModule :=
  { Store := fun _ _ _ _ => { cids := [], dealConfigs := [], err := some (GoError.other "no miners") }
    Watch := fun _ => Except.error (GoError.other "no miners") }

def failingService : service := { dealModule := failingEngine, cids := oneCidLib }

/-- An engine that reports a price of 2^64 per epoch. -/
def bigPriceEngine : deals.DealModule :=
  { Store := fun _ _ _ _ =>
      { cids := [qm123], dealConfigs := [{ Miner := "m1", EpochPrice := 2 ^ 64 }], err := none }
    Watch := fun _ => Except.ok [{ updateActive with PricePerEpoch := 2 ^ 64 }] }

def bigPriceService : service := { dealModule := bigPriceEngine, cids := oneCidLib }

/-- A header followed by a message with no payload. -/
def strayStream : API_StoreServer :=
  { msgs := [pb.StoreRequest.StoreParams scenarioParams, pb.StoreRequest.nil]
    recvErr := GoError.EOF
    sendAndClose := fun _ => none }

/-- A stream whose first message is a chunk. -/
def headlessStream : API_StoreServer :=
  { msgs := [pb.StoreRequest.Chunk chunkAB]
    recvErr := GoError.EOF
    sendAndClose := fun _ => none }

/-- A header and one chunk, then the transport fails. -/
def brokenStream : API_StoreServer :=
  { msgs := [pb.StoreRequest.StoreParams scenarioParams, pb.StoreRequest.Chunk chunkAB]
    recvErr := GoError.other "transport is closing"
    sendAndClose := fun _ => none }

/-- A peer that is gone from the first send on. -/
def gonePeer : API_WatchServer :=
  { send := fun _ _ => some (GoError.other "transport is closing") }

/-- A peer that takes every message. -/
def livePeer : API_WatchServer := { send := fun _ _ => none }

/-! ## The receive loop -/

theorem recvLoop_chunks (pipe : Pipe) (recvErr : GoError) (chunks : List Bytes) (k : Nat)
    (hw : ∀ i, i < chunks.length → pipe.writeErr (k + i) = none) :
    recvLoop pipe recvErr (chunks.map pb.StoreRequest.Chunk) k
      = (chunkWrites chunks ++ [closeCall recvErr], LoopExit.drained) := by
  induction chunks generalizing k with
  | nil => simp [recvLoop, chunkWrites]
  | cons c cs ih =>
    have h0 : pipe.writeErr k = none := by simpa using hw 0 (by simp)
    have hrest : ∀ i, i < cs.length → pipe.writeErr (k + 1 + i) = none := by
      intro i hi
      have := hw (i + 1) (by simpa using hi)
      rwa [show k + 1 + i = k + (i + 1) by omega]
    simp [recvLoop, h0, ih (k + 1) hrest, chunkWrites]

theorem recvLoop_nonChunk (pipe : Pipe) (recvErr : GoError) (chunks : List Bytes)
    (req : pb.StoreRequest) (rest : List pb.StoreRequest) (k : Nat)
    (hreq : req.GetPayload ≠ PayloadType.StoreRequest_Chunk)
    (hw : ∀ i, i < chunks.length → pipe.writeErr (k + i) = none) :
    recvLoop pipe recvErr (chunks.map pb.StoreRequest.Chunk ++ req :: rest) k
      = (chunkWrites chunks, LoopExit.returned (status.Errorf codes.Code.InvalidArgument
          "expected Chunk for StoreRequest.Payload but got %T" req.GetPayload)) := by
  induction chunks generalizing k with
  | nil =>
    cases req with
    | Chunk c => exact absurd rfl hreq
    | StoreParams p => simp [recvLoop, chunkWrites]
    | nil => simp [recvLoop, chunkWrites]
  | cons c cs ih =>
    have h0 : pipe.writeErr k = none := by simpa using hw 0 (by simp)
    have hrest : ∀ i, i < cs.length → pipe.writeErr (k + 1 + i) = none := by
      intro i hi
      have := hw (i + 1) (by simpa using hi)
      rwa [show k + 1 + i = k + (i + 1) by omega]
    simp [recvLoop, h0, ih (k + 1) hrest, chunkWrites]

theorem pipeData_chunkWrites (chunks : List Bytes) (op : PipeOp)
    (hop : ∀ b, op ≠ PipeOp.Write b none) :
    pipeData (chunkWrites chunks ++ [op]) = chunks.flatten := by
  induction chunks with
  | nil =>
    cases op with
    | Write b err =>
      cases err with
      | none => exact absurd rfl (hop b)
      | some e => simp [chunkWrites, pipeData]
    | Close => simp [chunkWrites, pipeData]
    | CloseWithError e => simp [chunkWrites, pipeData]
  | cons c cs ih =>
    have hstep : pipeData (chunkWrites (c :: cs) ++ [op])
        = c ++ pipeData (chunkWrites cs ++ [op]) := rfl
    rw [hstep, ih, List.flatten_cons]

theorem pipeEnd_chunkWrites (chunks : List Bytes) (op : PipeOp) :
    pipeEnd (chunkWrites chunks ++ [op]) = pipeEnd [op] := by
  induction chunks with
  | nil => simp [chunkWrites]
  | cons c cs ih =>
    have hstep : pipeEnd (chunkWrites (c :: cs) ++ [op])
        = pipeEnd (chunkWrites cs ++ [op]) := rfl
    rw [hstep, ih]

theorem readerOf_drained (chunks : List Bytes) (recvErr : GoError) :
    readerOf (chunkWrites chunks ++ [closeCall recvErr])
      = { data := chunks.flatten, finish := pipeEnd [closeCall recvErr] } := by
  have hop : ∀ b, closeCall recvErr ≠ PipeOp.Write b none := by
    intro b
    unfold closeCall
    split <;> simp
  simp [readerOf, pipeData_chunkWrites chunks _ hop, pipeEnd_chunkWrites]

/-! ## Reconciliation -/

theorem Store_drained (s : service) (srv : API_StoreServer) (pipe : Pipe)
    (storeParams : pb.StoreParams) (chunks : List Bytes)
    (hmsgs : srv.msgs = pb.StoreRequest.StoreParams storeParams
      :: chunks.map pb.StoreRequest.Chunk)
    (hw : ∀ k, k < chunks.length → pipe.writeErr k = none) :
    Store s srv pipe =
      (match (store s.dealModule storeParams
          { data := chunks.flatten, finish := pipeEnd [closeCall srv.recvErr] }).Err with
        | some err =>
          { pipe := some (chunkWrites chunks ++ [closeCall srv.recvErr])
            task := some
              { address := storeParams.Address
                dealConfigs := toDealConfigs storeParams.DealConfigs
                duration := storeParams.Duration }
            received := some (store s.dealModule storeParams
              { data := chunks.flatten, finish := pipeEnd [closeCall srv.recvErr] })
            replies := [], ret := some err }
        | none =>
          { pipe := some (chunkWrites chunks ++ [closeCall srv.recvErr])
            task := some
              { address := storeParams.Address
                dealConfigs := toDealConfigs storeParams.DealConfigs
                duration := storeParams.Duration }
            received := some (store s.dealModule storeParams
              { data := chunks.flatten, finish := pipeEnd [closeCall srv.recvErr] })
            replies := [toStoreReply s.cids (store s.dealModule storeParams
              { data := chunks.flatten, finish := pipeEnd [closeCall srv.recvErr] })]
            ret := srv.sendAndClose (toStoreReply s.cids (store s.dealModule storeParams
              { data := chunks.flatten, finish := pipeEnd [closeCall srv.recvErr] })) }) := by
  have hloop := recvLoop_chunks pipe srv.recvErr chunks 0 (by simpa using hw)
  simp only [Store, hmsgs, hloop, readerOf_drained]

theorem store_err (dealModule : deals.DealModule) (storeParams : pb.StoreParams)
    (reader : PipeReader) (e : GoError)
    (h : (dealModule.Store storeParams.Address reader
      (toDealConfigs storeParams.DealConfigs) storeParams.Duration).err = some e) :
    store dealModule storeParams reader = { Cids := [], DealConfigs := [], Err := some e } := by
  simp [store, h]

theorem store_ok (dealModule : deals.DealModule) (storeParams : pb.StoreParams)
    (reader : PipeReader)
    (h : (dealModule.Store storeParams.Address reader
      (toDealConfigs storeParams.DealConfigs) storeParams.Duration).err = none) :
    store dealModule storeParams reader =
      { Cids := (dealModule.Store storeParams.Address reader
          (toDealConfigs storeParams.DealConfigs) storeParams.Duration).cids
        DealConfigs := (dealModule.Store storeParams.Address reader
          (toDealConfigs storeParams.DealConfigs) storeParams.Duration).dealConfigs
        Err := none } := by
  simp [store, h]

/-- C1: for a Store stream of a parameter header, chunks C1..Cn and end of
input in which every pipe write succeeds, the coordinator calls Write(C1),
..., Write(Cn) and then Close on the pipe writer, in that order, and the
reader handed to the domain engine yields exactly C1 ++ ... ++ Cn followed by
a normal end of stream. -/
theorem Store_pipe_carries_chunks_in_order (s : service) (srv : API_StoreServer) (pipe : Pipe)
    (storeParams : pb.StoreParams) (chunks : List Bytes)
    (hmsgs : srv.msgs = pb.StoreRequest.StoreParams storeParams
      :: chunks.map pb.StoreRequest.Chunk)
    (heof : srv.recvErr = GoError.EOF)
    (hw : ∀ k, k < chunks.length → pipe.writeErr k = none) :
    (Store s srv pipe).pipe = some (chunks.map (fun c => PipeOp.Write c none) ++ [PipeOp.Close])
    ∧ readerOf (chunks.map (fun c => PipeOp.Write c none) ++ [PipeOp.Close])
        = { data := chunks.flatten, finish := PipeEnd.closed }
    ∧ (Store s srv pipe).received
        = some (store s.dealModule storeParams
            { data := chunks.flatten, finish := PipeEnd.closed }) := by
  have hrun := Store_drained s srv pipe storeParams chunks hmsgs hw
  have hclose : closeCall srv.recvErr = PipeOp.Close := by simp [closeCall, heof]
  have hreader := readerOf_drained chunks srv.recvErr
  rw [hclose] at hrun hreader
  have hend : pipeEnd [PipeOp.Close] = PipeEnd.closed := rfl
  rw [hend] at hrun hreader
  refine ⟨?_, hreader, ?_⟩
  · rw [hrun]; split <;> rfl
  · rw [hrun]; split <;> rfl

theorem Store_pipe_carries_chunks_in_order_witness :
    (Store echoService scenarioStream readingPipe).pipe
      = some [PipeOp.Write chunkAB none, PipeOp.Write chunkCD none, PipeOp.Close]
    ∧ readerOf [PipeOp.Write chunkAB none, PipeOp.Write chunkCD none, PipeOp.Close]
        = { data := [97, 98, 99, 100], finish := PipeEnd.closed }
    ∧ (Store echoService scenarioStream readingPipe).received
        = some (store echoEngine scenarioParams
            { data := [97, 98, 99, 100], finish := PipeEnd.closed }) :=
  Store_pipe_carries_chunks_in_order echoService scenarioStream readingPipe scenarioParams
    [chunkAB, chunkCD] rfl rfl (fun _ _ => rfl)

/-- C2: when the first message of a Store stream carries a payload that is
not a parameter header, Store returns an InvalidArgument status error; the
pipe is never created, the background store task is never started (so the
domain engine is not invoked), no result is awaited and no reply is sent. -/
theorem Store_rejects_first_message_without_header (s : service) (srv : API_StoreServer)
    (pipe : Pipe) (req : pb.StoreRequest) (rest : List pb.StoreRequest)
    (hmsgs : srv.msgs = req :: rest)
    (hreq : req.GetPayload ≠ PayloadType.StoreRequest_StoreParams) :
    (∃ e, (Store s srv pipe).ret = some e ∧ status.Code e = codes.Code.InvalidArgument)
    ∧ (Store s srv pipe).pipe = none
    ∧ (Store s srv pipe).task = none
    ∧ (Store s srv pipe).received = none
    ∧ (Store s srv pipe).replies = [] := by
  cases req with
  | StoreParams p => exact absurd rfl hreq
  | Chunk c =>
    simp [Store, hmsgs, status.Code, status.Errorf]
  | nil =>
    simp [Store, hmsgs, status.Code, status.Errorf]

theorem Store_rejects_first_message_without_header_witness :
    (∃ e, (Store echoService headlessStream readingPipe).ret = some e
      ∧ status.Code e = codes.Code.InvalidArgument)
    ∧ (Store echoService headlessStream readingPipe).pipe = none
    ∧ (Store echoService headlessStream readingPipe).task = none
    ∧ (Store echoService headlessStream readingPipe).received = none
    ∧ (Store echoService headlessStream readingPipe).replies = [] :=
  Store_rejects_first_message_without_header echoService headlessStream readingPipe
    (pb.StoreRequest.Chunk chunkAB) [] rfl (by decide)

/-- C3: in a Store run that reaches reconciliation (header, chunks whose
writes succeed, then end of input or an inbound stream error), if the domain
engine's store call fails with error e then Store returns exactly e and
SendAndClose is never called. -/
theorem Store_returns_engine_error (s : service) (srv : API_StoreServer) (pipe : Pipe)
    (storeParams : pb.StoreParams) (chunks : List Bytes) (e : GoError)
    (hmsgs : srv.msgs = pb.StoreRequest.StoreParams storeParams
      :: chunks.map pb.StoreRequest.Chunk)
    (hw : ∀ k, k < chunks.length → pipe.writeErr k = none)
    (hfail : (s.dealModule.Store storeParams.Address
        { data := chunks.flatten, finish := pipeEnd [closeCall srv.recvErr] }
        (toDealConfigs storeParams.DealConfigs) storeParams.Duration).err = some e) :
    (Store s srv pipe).ret = some e
    ∧ (Store s srv pipe).replies = []
    ∧ (Store s srv pipe).received = some { Cids := [], DealConfigs := [], Err := some e } := by
  have hrun := Store_drained s srv pipe storeParams chunks hmsgs hw
  rw [store_err _ _ _ e hfail] at hrun
  rw [hrun]
  exact ⟨rfl, rfl, rfl⟩

theorem Store_returns_engine_error_witness :
    (Store failingService brokenStream readingPipe).ret = some (GoError.other "no miners")
    ∧ (Store failingService brokenStream readingPipe).replies = []
    ∧ (Store failingService brokenStream readingPipe).received
        = some { Cids := [], DealConfigs := [], Err := some (GoError.other "no miners") } :=
  Store_returns_engine_error failingService brokenStream readingPipe scenarioParams
    [chunkAB] (GoError.other "no miners") rfl (fun _ _ => rfl) rfl

/-! ## Conversion to the wire form -/

theorem Uint64_of_fits (x : types.BigInt) (h0 : 0 ≤ x) (h1 : x < 2 ^ 64) :
    ((x.Uint64 : Nat) : Int) = x := by
  obtain ⟨n, rfl⟩ := Int.eq_ofNat_of_zero_le h0
  have hlt : n < 2 ^ 64 := by exact_mod_cast h1
  have hmod : n % 2 ^ 64 = n := Nat.mod_eq_of_lt hlt
  show ((((n : Int).natAbs % 2 ^ 64 : Nat)) : Int) = (n : Int)
  rw [Int.natAbs_ofNat, hmod]

theorem Uint64_NewInt (i : Nat) (h : i < 2 ^ 64) : (types.NewInt i).Uint64 = i := by
  have hmod : i % 2 ^ 64 = i := Nat.mod_eq_of_lt h
  show (Int.ofNat (i % 2 ^ 64)).natAbs % 2 ^ 64 = i
  rw [hmod]
  show i % 2 ^ 64 = i
  exact hmod

theorem toStoreReply_echo (lib : cid.Lib) (cids : List cid.Cid) (cfgs : List pb.DealConfig)
    (hfit : ∀ c ∈ cfgs, c.EpochPrice < 2 ^ 64) :
    (toStoreReply lib { Cids := cids, DealConfigs := toDealConfigs cfgs, Err := none }).DealConfigs
      = cfgs := by
  induction cfgs with
  | nil => rfl
  | cons c cs ih =>
    have hc := hfit c (by simp)
    have hcs : ∀ c ∈ cs, c.EpochPrice < 2 ^ 64 := fun d hd => hfit d (by simp [hd])
    have := ih hcs
    simp only [toStoreReply, toDealConfigs, List.map_cons, List.map_map] at this ⊢
    rw [this]
    simp [Uint64_NewInt _ hc]

/-- C4 (amended): in a Store run of a header, chunks whose writes succeed
and end of input, in which the domain engine succeeds with content ids
K1..Kp and deal configs D1..Dq, Store calls SendAndClose exactly once and
returns its result; the reply lists String(K1)..String(Kp) in order and q
deal configs, the i-th with the miner of Di and with the epoch price of Di
in unsigned 64-bit form, which is the price of Di whenever that lies in
[0, 2^64); when the engine echoes the header's deal configs (prices below
2^64, as on the wire) the reply's deal configs equal the header's. -/
theorem Store_reply_converts_engine_result (s : service) (srv : API_StoreServer) (pipe : Pipe)
    (storeParams : pb.StoreParams) (chunks : List Bytes)
    (cids : List cid.Cid) (dealConfigs : List deals.DealConfig)
    (hmsgs : srv.msgs = pb.StoreRequest.StoreParams storeParams
      :: chunks.map pb.StoreRequest.Chunk)
    (heof : srv.recvErr = GoError.EOF)
    (hw : ∀ k, k < chunks.length → pipe.writeErr k = none)
    (hok : s.dealModule.Store storeParams.Address
        { data := chunks.flatten, finish := PipeEnd.closed }
        (toDealConfigs storeParams.DealConfigs) storeParams.Duration
      = { cids := cids, dealConfigs := dealConfigs, err := none }) :
    ∃ reply, (Store s srv pipe).replies = [reply]
      ∧ (Store s srv pipe).ret = srv.sendAndClose reply
      ∧ reply.Cids = cids.map s.cids.String
      ∧ reply.DealConfigs.length = dealConfigs.length
      ∧ (∀ (i : Nat) (w : pb.DealConfig) (d : deals.DealConfig), reply.DealConfigs[i]? = some w → dealConfigs[i]? = some d →
          w.Miner = d.Miner ∧ w.EpochPrice = d.EpochPrice.Uint64
          ∧ (0 ≤ d.EpochPrice → d.EpochPrice < 2 ^ 64 → (w.EpochPrice : Int) = d.EpochPrice))
      ∧ (dealConfigs = toDealConfigs storeParams.DealConfigs →
          (∀ c ∈ storeParams.DealConfigs, c.EpochPrice < 2 ^ 64) →
          reply.DealConfigs = storeParams.DealConfigs) := by
  have hrun := Store_drained s srv pipe storeParams chunks hmsgs hw
  have hclose : pipeEnd [closeCall srv.recvErr] = PipeEnd.closed := by
    simp [closeCall, heof, pipeEnd]
  rw [hclose] at hrun
  have hst : store s.dealModule storeParams { data := chunks.flatten, finish := PipeEnd.closed }
      = { Cids := cids, DealConfigs := dealConfigs, Err := none } := by
    rw [store_ok _ _ _ (by rw [hok]), hok]
  rw [hst] at hrun
  refine ⟨toStoreReply s.cids { Cids := cids, DealConfigs := dealConfigs, Err := none },
    by rw [hrun], by rw [hrun], rfl, by simp [toStoreReply], ?_, ?_⟩
  · intro i w d hwi hdi
    simp only [toStoreReply, List.getElem?_map, hdi, Option.map_some', Option.some.injEq] at hwi
    subst hwi
    exact ⟨rfl, rfl, fun h0 h1 => Uint64_of_fits d.EpochPrice h0 h1⟩
  · intro hecho hfit
    rw [hecho]
    exact toStoreReply_echo s.cids cids storeParams.DealConfigs hfit

theorem Store_reply_converts_engine_result_witness :
    (∃ reply, (Store echoService scenarioStream readingPipe).replies = [reply]
      ∧ (Store echoService scenarioStream readingPipe).ret = scenarioStream.sendAndClose reply
      ∧ reply.Cids = [qm123].map oneCidLib.String
      ∧ reply.DealConfigs.length = (toDealConfigs scenarioParams.DealConfigs).length
      ∧ (∀ (i : Nat) (w : pb.DealConfig) (d : deals.DealConfig), reply.DealConfigs[i]? = some w →
          (toDealConfigs scenarioParams.DealConfigs)[i]? = some d →
          w.Miner = d.Miner ∧ w.EpochPrice = d.EpochPrice.Uint64
          ∧ (0 ≤ d.EpochPrice → d.EpochPrice < 2 ^ 64 → (w.EpochPrice : Int) = d.EpochPrice))
      ∧ (toDealConfigs scenarioParams.DealConfigs = toDealConfigs scenarioParams.DealConfigs →
          (∀ c ∈ scenarioParams.DealConfigs, c.EpochPrice < 2 ^ 64) →
          reply.DealConfigs = scenarioParams.DealConfigs))
    ∧ (Store echoService scenarioStream readingPipe).replies
        = [{ Cids := ["Qm123"], DealConfigs := [{ Miner := "m1", EpochPrice := 100 }] }] :=
  ⟨Store_reply_converts_engine_result echoService scenarioStream readingPipe scenarioParams
    [chunkAB, chunkCD] [qm123] (toDealConfigs scenarioParams.DealConfigs) rfl rfl
    (fun _ _ => rfl) rfl, by decide⟩

/-- C4 (counterexample): the engine succeeds with one deal config of miner
"m1" and epoch price 2^64; the single reply carries epoch price 0 at that
index, not the price of the engine's deal config. -/
theorem Store_reply_epochPrice_differs :
    (bigPriceEngine.Store "addr1" { data := [97, 98, 99, 100], finish := PipeEnd.closed }
        (toDealConfigs scenarioParams.DealConfigs) 1000).err = none
    ∧ (bigPriceEngine.Store "addr1" { data := [97, 98, 99, 100], finish := PipeEnd.closed }
        (toDealConfigs scenarioParams.DealConfigs) 1000).dealConfigs
        = [{ Miner := "m1", EpochPrice := 2 ^ 64 }]
    ∧ (Store bigPriceService scenarioStream readingPipe).replies
        = [{ Cids := ["Qm123"], DealConfigs := [{ Miner := "m1", EpochPrice := 0 }] }]
    ∧ ((0 : Nat) : Int) ≠ 2 ^ 64 := by
  refine ⟨rfl, rfl, ?_, by decide⟩
  decide

/-! ## Watch -/

theorem decodeProposals_ok (lib : cid.Lib) (proposals : List String) (ids : List cid.Cid)
    (h : List.Forall₂ (fun proposal id => lib.Decode proposal = Except.ok id) proposals ids) :
    decodeProposals lib proposals = Except.ok ids := by
  induction h with
  | nil => rfl
  | cons hd _ ih => simp [decodeProposals, hd, ih]

theorem decodeProposals_error (lib : cid.Lib) (proposals : List String)
    (h : ∃ proposal ∈ proposals, ∃ err, lib.Decode proposal = Except.error err) :
    ∃ proposal ∈ proposals, ∃ err, lib.Decode proposal = Except.error err
      ∧ decodeProposals lib proposals = Except.error err := by
  induction proposals with
  | nil => simp at h
  | cons p ps ih =>
    cases hp : lib.Decode p with
    | error err => exact ⟨p, by simp, err, hp, by simp [decodeProposals, hp]⟩
    | ok id =>
      have hps : ∃ proposal ∈ ps, ∃ err, lib.Decode proposal = Except.error err := by
        obtain ⟨q, hq, err, hdec⟩ := h
        rcases List.mem_cons.mp hq with rfl | hq
        · rw [hp] at hdec; cases hdec
        · exact ⟨q, hq, err, hdec⟩
      obtain ⟨q, hq, err, hdec, hall⟩ := ih hps
      exact ⟨q, by simp [hq], err, hdec, by simp [decodeProposals, hp, hall]⟩

theorem forward_all_sent (lib : cid.Lib) (srv : API_WatchServer) (updates : List deals.DealInfo)
    (k : Nat) (hsend : ∀ i reply, srv.send i reply = none) :
    forward lib srv updates k
      = updates.map fun update => { reply := toWatchReply lib update, err := none } := by
  induction updates generalizing k with
  | nil => rfl
  | cons u us ih => simp [forward, hsend, ih (k + 1)]

/-- C5 (amended): for a Watch request whose proposal strings all decode and
for which the engine opens a subscription that emits updates U1..Uk and then
closes the channel, with every send succeeding, Watch takes k updates, calls
Send exactly k times, the i-th time with the conversion of Ui (proposal id
in string form; stateID, stateName, miner, pieceRef, size and duration
copied; pricePerEpoch in unsigned 64-bit form, which is the price of Ui
whenever that lies in [0, 2^64)), in the order received, sends nothing
after the close, and returns no error. -/
theorem Watch_forwards_updates_in_order (s : service) (req : pb.WatchRequest)
    (srv : API_WatchServer) (ids : List cid.Cid) (updates : List deals.DealInfo)
    (hdec : List.Forall₂ (fun proposal id => s.cids.Decode proposal = Except.ok id)
      req.Proposals ids)
    (hsub : s.dealModule.Watch ids = Except.ok updates)
    (hsend : ∀ i reply, srv.send i reply = none) :
    (Watch s req srv).subscription = some ids
    ∧ (Watch s req srv).taken = updates.length
    ∧ (Watch s req srv).sends
        = updates.map (fun update => { reply := toWatchReply s.cids update, err := none })
    ∧ (Watch s req srv).ret = none
    ∧ (∀ update ∈ updates,
        (toWatchReply s.cids update).DealInfo.ProposalCid = s.cids.String update.ProposalCid
        ∧ (toWatchReply s.cids update).DealInfo.StateID = update.StateID
        ∧ (toWatchReply s.cids update).DealInfo.StateName = update.StateName
        ∧ (toWatchReply s.cids update).DealInfo.Miner = update.Miner
        ∧ (toWatchReply s.cids update).DealInfo.PieceRef = update.PieceRef
        ∧ (toWatchReply s.cids update).DealInfo.Size = update.Size
        ∧ (toWatchReply s.cids update).DealInfo.Duration = update.Duration
        ∧ (toWatchReply s.cids update).DealInfo.PricePerEpoch = update.PricePerEpoch.Uint64
        ∧ (0 ≤ update.PricePerEpoch → update.PricePerEpoch < 2 ^ 64 →
            ((toWatchReply s.cids update).DealInfo.PricePerEpoch : Int)
              = update.PricePerEpoch)) := by
  have hrun : Watch s req srv =
      { subscription := some ids, taken := (forward s.cids srv updates 0).length
        sends := forward s.cids srv updates 0, ret := none } := by
    simp [Watch, decodeProposals_ok s.cids req.Proposals ids hdec, hsub]
  rw [hrun, forward_all_sent s.cids srv updates 0 hsend]
  refine ⟨rfl, by simp, rfl, rfl, ?_⟩
  intro update _
  exact ⟨rfl, rfl, rfl, rfl, rfl, rfl, rfl, rfl,
    fun h0 h1 => Uint64_of_fits update.PricePerEpoch h0 h1⟩

theorem Watch_forwards_updates_in_order_witness :
    (Watch echoService { Proposals := ["bafkqaaa"] } livePeer).subscription = some [rawEmpty]
    ∧ (Watch echoService { Proposals := ["bafkqaaa"] } livePeer).taken
        = [updateActive, updateComplete].length
    ∧ (Watch echoService { Proposals := ["bafkqaaa"] } livePeer).sends
        = [updateActive, updateComplete].map
            (fun update => { reply := toWatchReply echoService.cids update, err := none })
    ∧ (Watch echoService { Proposals := ["bafkqaaa"] } livePeer).ret = none
    ∧ (∀ update ∈ [updateActive, updateComplete],
        (toWatchReply echoService.cids update).DealInfo.ProposalCid
          = echoService.cids.String update.ProposalCid
        ∧ (toWatchReply echoService.cids update).DealInfo.StateID = update.StateID
        ∧ (toWatchReply echoService.cids update).DealInfo.StateName = update.StateName
        ∧ (toWatchReply echoService.cids update).DealInfo.Miner = update.Miner
        ∧ (toWatchReply echoService.cids update).DealInfo.PieceRef = update.PieceRef
        ∧ (toWatchReply echoService.cids update).DealInfo.Size = update.Size
        ∧ (toWatchReply echoService.cids update).DealInfo.Duration = update.Duration
        ∧ (toWatchReply echoService.cids update).DealInfo.PricePerEpoch
            = update.PricePerEpoch.Uint64
        ∧ (0 ≤ update.PricePerEpoch → update.PricePerEpoch < 2 ^ 64 →
            ((toWatchReply echoService.cids update).DealInfo.PricePerEpoch : Int)
              = update.PricePerEpoch)) :=
  Watch_forwards_updates_in_order echoService { Proposals := ["bafkqaaa"] } livePeer [rawEmpty]
    [updateActive, updateComplete] (List.Forall₂.cons rfl List.Forall₂.nil) rfl
    (fun _ _ => rfl)

/-- C5 (counterexample): the request names the decodable proposal
"bafkqaaa"; the engine opens the subscription, emits one update whose price
per epoch is 2^64 and closes the channel; the single message sent carries
price per epoch 0, so the price is not copied. -/
theorem Watch_reply_pricePerEpoch_differs :
    oneCidLib.Decode "bafkqaaa" = Except.ok rawEmpty
    ∧ (Watch bigPriceService { Proposals := ["bafkqaaa"] } livePeer).subscription
        = some [rawEmpty]
    ∧ bigPriceEngine.Watch [rawEmpty]
        = Except.ok [{ updateActive with PricePerEpoch := 2 ^ 64 }]
    ∧ (Watch bigPriceService { Proposals := ["bafkqaaa"] } livePeer).sends
        = [{ reply := { DealInfo :=
              { ProposalCid := "bafkqaaa", StateID := 7, StateName := "Active", Miner := "m1",
                PieceRef := [1, 2], Size := 4, PricePerEpoch := 0, Duration := 1000 } }
             err := none }]
    ∧ ((0 : Nat) : Int) ≠ ({ updateActive with PricePerEpoch := 2 ^ 64 }).PricePerEpoch := by
  refine ⟨rfl, ?_, rfl, ?_, by decide⟩
  · decide
  · decide

/-- C6 (the code at the failing input): the request names the decodable
proposal "bafkqaaa"; the engine opens the subscription, emits two updates
and closes the channel while every Send fails; Watch still takes both
updates from the channel, passes both to Send and returns nil. -/
theorem Watch_keeps_forwarding_after_failed_send :
    oneCidLib.Decode "bafkqaaa" = Except.ok rawEmpty
    ∧ (Watch echoService { Proposals := ["bafkqaaa"] } gonePeer).subscription
        = some [rawEmpty]
    ∧ echoEngine.Watch [rawEmpty] = Except.ok [updateActive, updateComplete]
    ∧ (Watch echoService { Proposals := ["bafkqaaa"] } gonePeer).taken = 2
    ∧ (Watch echoService { Proposals := ["bafkqaaa"] } gonePeer).sends
        = [{ reply := toWatchReply oneCidLib updateActive
             err := some (GoError.other "transport is closing") },
           { reply := toWatchReply oneCidLib updateComplete
             err := some (GoError.other "transport is closing") }]
    ∧ (Watch echoService { Proposals := ["bafkqaaa"] } gonePeer).ret = none := by
  refine ⟨rfl, ?_, rfl, ?_, ?_, ?_⟩ <;> decide

/-- C9: when at least one proposal string of a Watch request fails to
decode, at any position, Watch returns an error (the decoder's error for a
failing proposal) without opening a subscription on the domain engine,
without taking an update and without calling Send. -/
theorem Watch_aborts_on_undecodable_proposal (s : service) (req : pb.WatchRequest)
    (srv : API_WatchServer)
    (h : ∃ proposal ∈ req.Proposals, ∃ err, s.cids.Decode proposal = Except.error err) :
    (∃ err, (Watch s req srv).ret = some err)
    ∧ (Watch s req srv).subscription = none
    ∧ (Watch s req srv).taken = 0
    ∧ (Watch s req srv).sends = [] := by
  obtain ⟨_, _, err, _, hall⟩ := decodeProposals_error s.cids req.Proposals h
  simp [Watch, hall]

theorem Watch_aborts_on_undecodable_proposal_witness :
    (∃ err, (Watch echoService { Proposals := ["bafkqaaa", "bogus"] } livePeer).ret = some err)
    ∧ (Watch echoService { Proposals := ["bafkqaaa", "bogus"] } livePeer).subscription = none
    ∧ (Watch echoService { Proposals := ["bafkqaaa", "bogus"] } livePeer).taken = 0
    ∧ (Watch echoService { Proposals := ["bafkqaaa", "bogus"] } livePeer).sends = [] :=
  Watch_aborts_on_undecodable_proposal echoService { Proposals := ["bafkqaaa", "bogus"] } livePeer
    ⟨"bogus", by simp, GoError.other "cid too short", rfl⟩

/-! ## Failure paths of Store -/

theorem Store_stray (s : service) (srv : API_StoreServer) (pipe : Pipe)
    (storeParams : pb.StoreParams) (chunks : List Bytes) (req : pb.StoreRequest)
    (rest : List pb.StoreRequest)
    (hmsgs : srv.msgs = pb.StoreRequest.StoreParams storeParams
      :: (chunks.map pb.StoreRequest.Chunk ++ req :: rest))
    (hreq : req.GetPayload ≠ PayloadType.StoreRequest_Chunk)
    (hw : ∀ k, k < chunks.length → pipe.writeErr k = none) :
    Store s srv pipe =
      { pipe := some (chunkWrites chunks)
        task := some
          { address := storeParams.Address
            dealConfigs := toDealConfigs storeParams.DealConfigs
            duration := storeParams.Duration }
        received := none, replies := []
        ret := some (status.Errorf codes.Code.InvalidArgument
          "expected Chunk for StoreRequest.Payload but got %T" req.GetPayload) } := by
  have hloop := recvLoop_nonChunk pipe srv.recvErr chunks req rest 0 hreq (by simpa using hw)
  simp only [Store, hmsgs, hloop]

/-- C7 (the code at the failing input): after the header a message with no
payload arrives; Store has started the background task, returns the
InvalidArgument error, and has made no call on the pipe writer: the write
end is still open when Store returns. -/
theorem Store_leaves_pipe_open_on_stray_message :
    (Store echoService strayStream readingPipe).task
      = some { address := "addr1", dealConfigs := [{ Miner := "m1", EpochPrice := 100 }],
               duration := 1000 }
    ∧ (Store echoService strayStream readingPipe).pipe = some []
    ∧ pipeEnd [] = PipeEnd.stillOpen
    ∧ (Store echoService strayStream readingPipe).received = none
    ∧ (Store echoService strayStream readingPipe).ret
        = some (GoError.status codes.Code.InvalidArgument
            "expected Chunk for StoreRequest.Payload but got %T" PayloadType.nil) := by
  decide

/-- C8 (amended): in a Store run in which, after the header and chunks
whose writes succeed, reading the inbound stream fails with an error e other
than end of input, the coordinator closes the pipe with e after the chunk
writes, so the engine's reader yields the chunks' bytes and then e; Store
then takes the engine's result: if the store call failed with e2, Store
returns e2 and sends no reply; if it succeeded, Store sends the success
reply and returns the result of sending it. -/
theorem Store_closes_pipe_with_inbound_error (s : service) (srv : API_StoreServer)
    (pipe : Pipe) (storeParams : pb.StoreParams) (chunks : List Bytes)
    (hmsgs : srv.msgs = pb.StoreRequest.StoreParams storeParams
      :: chunks.map pb.StoreRequest.Chunk)
    (herr : srv.recvErr ≠ GoError.EOF)
    (hw : ∀ k, k < chunks.length → pipe.writeErr k = none) :
    (Store s srv pipe).pipe
      = some (chunks.map (fun c => PipeOp.Write c none) ++ [PipeOp.CloseWithError srv.recvErr])
    ∧ (Store s srv pipe).received
        = some (store s.dealModule storeParams
            { data := chunks.flatten, finish := PipeEnd.closedWithError srv.recvErr })
    ∧ (∀ e2, (store s.dealModule storeParams
          { data := chunks.flatten, finish := PipeEnd.closedWithError srv.recvErr }).Err = some e2 →
        (Store s srv pipe).ret = some e2 ∧ (Store s srv pipe).replies = [])
    ∧ ((store s.dealModule storeParams
          { data := chunks.flatten, finish := PipeEnd.closedWithError srv.recvErr }).Err = none →
        (Store s srv pipe).replies = [toStoreReply s.cids (store s.dealModule storeParams
          { data := chunks.flatten, finish := PipeEnd.closedWithError srv.recvErr })]
        ∧ (Store s srv pipe).ret = srv.sendAndClose (toStoreReply s.cids
            (store s.dealModule storeParams
              { data := chunks.flatten, finish := PipeEnd.closedWithError srv.recvErr }))) := by
  have hrun := Store_drained s srv pipe storeParams chunks hmsgs hw
  have hclose : closeCall srv.recvErr = PipeOp.CloseWithError srv.recvErr := by
    simp [closeCall, herr]
  rw [hclose] at hrun
  have hend : pipeEnd [PipeOp.CloseWithError srv.recvErr]
      = PipeEnd.closedWithError srv.recvErr := rfl
  rw [hend] at hrun
  refine ⟨?_, ?_, ?_, ?_⟩
  · rw [hrun]; split <;> rfl
  · rw [hrun]; split <;> rfl
  · intro e2 he2
    rw [hrun, he2]
    exact ⟨rfl, rfl⟩
  · intro hnone
    rw [hrun, hnone]
    exact ⟨rfl, rfl⟩

theorem Store_closes_pipe_with_inbound_error_witness :
    (Store failingService brokenStream readingPipe).pipe
      = some ([chunkAB].map (fun c => PipeOp.Write c none)
          ++ [PipeOp.CloseWithError brokenStream.recvErr])
    ∧ (Store failingService brokenStream readingPipe).received
        = some (store failingService.dealModule scenarioParams
            { data := [chunkAB].flatten
              finish := PipeEnd.closedWithError brokenStream.recvErr })
    ∧ (∀ e2, (store failingService.dealModule scenarioParams
          { data := [chunkAB].flatten
            finish := PipeEnd.closedWithError brokenStream.recvErr }).Err = some e2 →
        (Store failingService brokenStream readingPipe).ret = some e2
        ∧ (Store failingService brokenStream readingPipe).replies = [])
    ∧ ((store failingService.dealModule scenarioParams
          { data := [chunkAB].flatten
            finish := PipeEnd.closedWithError brokenStream.recvErr }).Err = none →
        (Store failingService brokenStream readingPipe).replies
          = [toStoreReply failingService.cids (store failingService.dealModule scenarioParams
              { data := [chunkAB].flatten
                finish := PipeEnd.closedWithError brokenStream.recvErr })]
        ∧ (Store failingService brokenStream readingPipe).ret
            = brokenStream.sendAndClose (toStoreReply failingService.cids
                (store failingService.dealModule scenarioParams
                  { data := [chunkAB].flatten
                    finish := PipeEnd.closedWithError brokenStream.recvErr }))) :=
  Store_closes_pipe_with_inbound_error failingService brokenStream readingPipe scenarioParams
    [chunkAB] rfl (by decide) (fun _ _ => rfl)

/-- C8 (counterexample): after the header and one chunk the inbound stream
fails with a transport error; the pipe is closed with that error, the engine
nevertheless reports success, and Store sends the success reply and returns
nil. -/
theorem Store_replies_success_after_inbound_error :
    brokenStream.recvErr ≠ GoError.EOF
    ∧ (Store echoService brokenStream readingPipe).pipe
        = some [PipeOp.Write chunkAB none,
            PipeOp.CloseWithError (GoError.other "transport is closing")]
    ∧ (Store echoService brokenStream readingPipe).replies
        = [{ Cids := ["Qm123"], DealConfigs := [{ Miner := "m1", EpochPrice := 100 }] }]
    ∧ (Store echoService brokenStream readingPipe).ret = none := by
  decide

/-- C10 (amended): a first message of Store that is not a parameter header,
and a message after the header that is not a chunk (the chunks before it
written), each make Store return an error whose status code is
InvalidArgument; a proposal of a Watch request that fails to decode makes
Watch return the decoder's error for a failing proposal unchanged, so its
status code is whatever that error carries. -/
theorem protocol_violations_surface (s : service) (srv : API_StoreServer) (pipe : Pipe)
    (wreq : pb.WatchRequest) (wsrv : API_WatchServer) :
    (∀ (req : pb.StoreRequest) (rest : List pb.StoreRequest),
        srv.msgs = req :: rest →
        req.GetPayload ≠ PayloadType.StoreRequest_StoreParams →
        ∃ e, (Store s srv pipe).ret = some e ∧ status.Code e = codes.Code.InvalidArgument)
    ∧ (∀ (storeParams : pb.StoreParams) (chunks : List Bytes) (req : pb.StoreRequest)
        (rest : List pb.StoreRequest),
        srv.msgs = pb.StoreRequest.StoreParams storeParams
          :: (chunks.map pb.StoreRequest.Chunk ++ req :: rest) →
        req.GetPayload ≠ PayloadType.StoreRequest_Chunk →
        (∀ k, k < chunks.length → pipe.writeErr k = none) →
        ∃ e, (Store s srv pipe).ret = some e ∧ status.Code e = codes.Code.InvalidArgument)
    ∧ ((∃ proposal ∈ wreq.Proposals, ∃ err, s.cids.Decode proposal = Except.error err) →
        ∃ proposal ∈ wreq.Proposals, ∃ err, s.cids.Decode proposal = Except.error err
          ∧ (Watch s wreq wsrv).ret = some err
          ∧ status.Code ((Watch s wreq wsrv).ret.getD GoError.EOF) = status.Code err) := by
  refine ⟨?_, ?_, ?_⟩
  · intro req rest hmsgs hreq
    cases req with
    | StoreParams p => exact absurd rfl hreq
    | Chunk c => simp [Store, hmsgs, status.Code, status.Errorf]
    | nil => simp [Store, hmsgs, status.Code, status.Errorf]
  · intro storeParams chunks req rest hmsgs hreq hw
    rw [Store_stray s srv pipe storeParams chunks req rest hmsgs hreq hw]
    exact ⟨_, rfl, rfl⟩
  · intro h
    obtain ⟨proposal, hmem, err, hdec, hall⟩ := decodeProposals_error s.cids wreq.Proposals h
    exact ⟨proposal, hmem, err, hdec, by simp [Watch, hall], by simp [Watch, hall]⟩

theorem protocol_violations_surface_witness :
    (∃ e, (Store echoService headlessStream readingPipe).ret = some e
        ∧ status.Code e = codes.Code.InvalidArgument)
    ∧ (∃ e, (Store echoService strayStream readingPipe).ret = some e
        ∧ status.Code e = codes.Code.InvalidArgument)
    ∧ (∃ proposal ∈ ["bogus"], ∃ err, echoService.cids.Decode proposal = Except.error err
        ∧ (Watch echoService { Proposals := ["bogus"] } livePeer).ret = some err
        ∧ status.Code ((Watch echoService { Proposals := ["bogus"] } livePeer).ret.getD
            GoError.EOF) = status.Code err) :=
  ⟨(protocol_violations_surface echoService headlessStream readingPipe
      { Proposals := ["bogus"] } livePeer).1 (pb.StoreRequest.Chunk chunkAB) [] rfl (by decide),
   (protocol_violations_surface echoService strayStream readingPipe
      { Proposals := ["bogus"] } livePeer).2.1 scenarioParams [] pb.StoreRequest.nil [] rfl
      (by decide) (fun _ h => absurd h (Nat.not_lt_zero _)),
   (protocol_violations_surface echoService strayStream readingPipe
      { Proposals := ["bogus"] } livePeer).2.2
      ⟨"bogus", by simp, GoError.other "cid too short", rfl⟩⟩

/-- C10 (counterexample): a Watch request with the malformed proposal
"bogus" returns the decoder's error, whose status code is Unknown and not
InvalidArgument. -/
theorem Watch_decode_error_is_not_InvalidArgument :
    oneCidLib.Decode "bogus" = Except.error (GoError.other "cid too short")
    ∧ (Watch echoService { Proposals := ["bogus"] } livePeer).ret
        = some (GoError.other "cid too short")
    ∧ status.Code (GoError.other "cid too short") = codes.Code.Unknown
    ∧ status.Code (GoError.other "cid too short") ≠ codes.Code.InvalidArgument := by
  refine ⟨rfl, ?_, rfl, by decide⟩
  decide

end api
